import Mathlib

/-!
Verification of the MSM-estimation dispatch API (src/emma2/msm/estimation/api.py)
and of the TICA estimator (src/pyemma/coordinates/transform/tica.py).

Matrices are embedded as entry functions over Fin n tagged with their
representation (dense numpy ndarray vs scipy sparse matrix); rational numbers
stand in for the numeric values; Python exceptions raised by the embedded code
are modelled with Except; calls to warnings.warn are modelled by returning a
list of warnings alongside the result.
-/

namespace MsmEstimation

/-- Python exception kinds raised by the embedded code. -/
inductive Err
  | notImplementedError
  | valueError
  | runtimeError
  | assertionError
deriving DecidableEq

/-- Warnings emitted through warnings.warn in the embedded code. -/
inductive Warning
  | priorDenseForSparseInput
  | sparseConversionWarning
deriving DecidableEq

/-- Representation tag of a square numeric matrix: numpy ndarray (dense) or a
scipy sparse structure (csr/coo). -/
inductive Rep
  | dense
  | sparse
deriving DecidableEq

/-- A square numeric matrix: its representation tag plus its entries. -/
structure Mat (n : ℕ) where
  rep : Rep
  entry : Fin n → Fin n → ℚ

/-- scipy.sparse.csr_matrix applied to a dense array: same entries, sparse tag. -/
def csr_matrix {n : ℕ} (e : Fin n → Fin n → ℚ) : Mat n :=
  { rep := Rep.sparse, entry := e }

/-- C.toarray(): the dense entry array underlying a matrix. -/
def Mat.toarray {n : ℕ} (C : Mat n) : Fin n → Fin n → ℚ := C.entry

end MsmEstimation

namespace Tica

/-- State of a TICA object (src/pyemma/coordinates/transform/tica.py).
The configuration fields are set by the constructor via set_params; the
model fields (estimated, eigenvalues, eigenvectors, cumvar, mean,
skipped_trajs) belong to the TICAModel / estimation state that a successful
call to _estimate fills in. -/
structure TICAState where
  lag : ℕ
  dim : ℤ
  var_cutoff : ℚ
  kinetic_map : Bool
  epsilon : ℚ
  meanInit : Option (List ℚ)
  stride : ℕ
  estimated : Bool
  eigenvalues : List ℚ
  eigenvectors : List (List ℚ)
  cumvar : List ℚ
  mean : List ℚ
  skipped_trajs : List ℕ
deriving DecidableEq

/-- Default value of the var_cutoff keyword of TICA.__init__ (0.95), as
recovered in the source via get_default_args. -/
def default_var_cutoff : ℚ := 95 / 100

/-- TICA.__init__(lag, dim, var_cutoff, kinetic_map, epsilon, mean, stride).
Raises ValueError when dim is not -1 and var_cutoff differs from its default;
otherwise overrides var_cutoff with 1.0 whenever dim > -1 and stores the
parameters, with an empty dummy model instance and no skipped trajectories. -/
def TICA.init (lag : ℕ) (dim : ℤ) (var_cutoff : ℚ) (kinetic_map : Bool)
    (epsilon : ℚ) (mean : Option (List ℚ)) (stride : ℕ) : Except MsmEstimation.Err TICAState :=
  if dim ≠ -1 ∧ var_cutoff ≠ default_var_cutoff then
    .error .valueError
  else
    Except.ok
      { lag := lag, dim := dim,
        var_cutoff := if dim > -1 then 1 else var_cutoff,
        kinetic_map := kinetic_map, epsilon := epsilon, meanInit := mean,
        stride := stride, estimated := false, eigenvalues := [],
        eigenvectors := [], cumvar := [], mean := [], skipped_trajs := [] }

/-- Modelled from the spec: numpy.searchsorted(a, v) with side left is not part
of this repository; on a sorted list it returns the first index whose element
is at least v (the length of the list when no such element exists). -/
def searchsorted (l : List ℚ) (v : ℚ) : ℕ :=
  (l.findIdx? (fun x => v ≤ x)).getD l.length

/-- TICA.dimension(). data_dim stands for self.data_producer.dimension(),
the dimension of the input data (the data producer is an external
collaborator attached outside this class). -/
def TICA.dimension (t : TICAState) (data_dim : ℕ) : Except MsmEstimation.Err ℤ :=
  if t.dim > -1 then
    .ok t.dim
  else if t.dim ≠ -1 ∧ t.estimated = false then
    .ok t.dim
  else if t.estimated = true then
    .ok (if t.var_cutoff < 1 then
          min t.eigenvalues.length (searchsorted t.cumvar t.var_cutoff + 1)
        else t.eigenvalues.length)
  else if t.var_cutoff = 1 then
    .ok (data_dim : ℤ)
  else
    .error .runtimeError

/-- Data source handed to TICA._estimate (the iterable). The data reader is an
external collaborator not under src/: it is abstracted as the list of raw
trajectory lengths (iterable.trajectory_length(i)), the list of lengths at the
configured stride (iterable.trajectory_lengths(self.stride)), and the input
dimension (iterable.dimension()). -/
structure DataSource where
  rawLengths : List ℕ
  stridedLengths : List ℕ
  data_dim : ℕ

/-- TICA._estimate(iterable): the shape checks, the fatal lag check and the
skipped-trajectory bookkeeping of the source. The covariance accumulation and
the eigendecomposition (running_covar, eig_corr) are external collaborators
not under src/ and are elided: the numerical model fields of the returned
state are not specified here, only that estimation completes and which
trajectory indices are recorded as skipped. -/
def TICA.estimate (t : TICAState) (src : DataSource) : Except MsmEstimation.Err TICAState :=
  if ¬ 0 < src.data_dim then
    .error .assertionError
  else if ¬ t.dim ≤ (src.data_dim : ℤ) then
    .error .assertionError
  else if ¬ src.stridedLengths.any (fun l => t.lag < l) then
    .error .valueError
  else
    Except.ok
      { t with
        estimated := true,
        skipped_trajs :=
          (List.range src.rawLengths.length).filter
            (fun i => src.rawLengths.getD i 0 < t.lag) }

/-- Dot product of two rows, as used by np.dot on 1-d slices. -/
def dotRow : List ℚ → List ℚ → ℚ
  | [], _ => 0
  | _, [] => 0
  | x :: xs, y :: ys => x * y + dotRow xs ys

/-- Column j of a row-major matrix B (the slice B[:, j]). -/
def colOf (B : List (List ℚ)) (j : ℕ) : List ℚ :=
  B.map (fun row => row.getD j 0)

/-- TICA._transform_array(X): X_meanfree = X - mean;
Y = X_meanfree . eigenvectors[:, 0:dimension()]; if kinetic_map, Y is scaled
columnwise by eigenvalues[0:dimension()]. X is row-major. -/
def TICA.transform_array (t : TICAState) (data_dim : ℕ) (X : List (List ℚ)) :
    Except MsmEstimation.Err (List (List ℚ)) :=
  match TICA.dimension t data_dim with
  | .error e => .error e
  | .ok dz =>
    let d := dz.toNat
    let Xm := X.map (fun row => List.zipWith (fun a b => a - b) row t.mean)
    let Y := Xm.map (fun row => (List.range d).map (fun j => dotRow row (colOf t.eigenvectors j)))
    if t.kinetic_map then
      .ok (Y.map (fun row => List.zipWith (fun a b => a * b) row (t.eigenvalues.take d)))
    else
      .ok Y

end Tica

namespace MsmEstimation

/-- count_matrix_cores(dtraj, cores, lag, sliding): milestoning count matrix,
unconditionally raising NotImplementedError in the source. -/
def count_matrix_cores (dtraj : List ℤ) (cores : List ℤ) (lag : ℤ)
    (sliding : Bool) : Except Err ((m : ℕ) × Mat m) :=
  .error .notImplementedError

/-- transition_matrix(C, reversible, mu): the dense/sparse dispatch of the
estimator. The four numerical routines it delegates to live in modules not
under src/ (dense.transition_matrix and sparse.transition_matrix), so they are
parameters here, typed after their interfaces in the source:
etr for dense.transition_matrix.estimate_transition_matrix_reversible (dense
array in, dense array out), tfix for
dense.transition_matrix.transition_matrix_reversible_fixpi (dense array and
stationary vector in, dense array out), tnrs for
sparse.transition_matrix.transition_matrix_non_reversible (sparse matrix in),
and tnrd for dense.transition_matrix.transition_matrix_non_reversible. -/
def transition_matrix {n : ℕ}
    (etr : (Fin n → Fin n → ℚ) → Fin n → Fin n → ℚ)
    (tfix : (Fin n → Fin n → ℚ) → (Fin n → ℚ) → Fin n → Fin n → ℚ)
    (tnrs : Mat n → Mat n)
    (tnrd : (Fin n → Fin n → ℚ) → Fin n → Fin n → ℚ)
    (C : Mat n) (reversible : Bool) (mu : Option (Fin n → ℚ)) : Except Err (Mat n) :=
  if reversible then
    match mu with
    | none =>
      if C.rep = Rep.sparse then
        .ok (csr_matrix (etr C.toarray))
      else
        .ok { rep := Rep.dense, entry := etr C.entry }
    | some m =>
      if C.rep = Rep.sparse then
        .ok (csr_matrix (tfix C.toarray m))
      else
        .ok { rep := Rep.dense, entry := tfix C.entry m }
  else
    match mu with
    | none =>
      if C.rep = Rep.sparse then
        .ok (tnrs C)
      else
        .ok { rep := Rep.dense, entry := tnrd C.entry }
    | some _ =>
      .error .notImplementedError

/-- np.nonzero(T) on a 2-d array: the (row, column) index pairs of the nonzero
entries, in row-major order. -/
def nonzero {n : ℕ} (T : Fin n → Fin n → ℚ) : List (Fin n × Fin n) :=
  (List.finRange n).flatMap
    (fun i => ((List.finRange n).filter (fun j => decide (T i j ≠ 0))).map (fun j => (i, j)))

namespace sparse

namespace likelihood

/-- Modelled from the spec: sparse.likelihood.log_likelihood is not under
src/; the spec gives log_likelihood(C,T) as the sum of C_ij log T_ij over the
index pairs with T_ij nonzero. The real-valued logarithm is a parameter f
since floating point is abstracted to rationals. -/
def log_likelihood {n : ℕ} (f : ℚ → ℚ) (C T : Mat n) : ℚ :=
  ∑ i : Fin n, ∑ j : Fin n,
    if T.entry i j ≠ 0 then C.entry i j * f (T.entry i j) else 0

end likelihood

namespace prior

/-- Modelled from the spec: sparse.prior.prior_const is not under src/; the
constant prior has B_ij = alpha for all i, j and is a dense matrix by
construction. -/
def prior_const {n : ℕ} (C : Mat n) (alpha : ℚ) : Mat n :=
  { rep := Rep.dense, entry := fun _ _ => alpha }

end prior

end sparse

/-- log_likelihood(C, T) of the api: if both matrices are sparse it delegates
to sparse.likelihood.log_likelihood; otherwise both are converted to ndarrays
and the dense path computes np.dot(C[nz], log(T[nz])) with nz = np.nonzero(T).
The logarithm is the parameter f (floating point abstracted to rationals). -/
def log_likelihood {n : ℕ} (f : ℚ → ℚ) (C T : Mat n) : ℚ :=
  if C.rep = Rep.sparse ∧ T.rep = Rep.sparse then
    sparse.likelihood.log_likelihood f C T
  else
    ((nonzero T.entry).map (fun p => C.entry p.1 p.2 * f (T.entry p.1 p.2))).sum

/-- prior_const(C, alpha) of the api: delegates to sparse.prior.prior_const in
both branches, warning beforehand exactly when the input is sparse (the
result is dense by construction). The emitted warnings are returned next to
the result. -/
def prior_const {n : ℕ} (C : Mat n) (alpha : ℚ) : List Warning × Mat n :=
  if C.rep = Rep.dense then
    ([], sparse.prior.prior_const C alpha)
  else
    ([Warning.priorDenseForSparseInput], sparse.prior.prior_const C alpha)

namespace sparse

namespace connectivity

/-- Edge relation of the count-matrix graph: an edge i -> j exists iff the
entry C_ij is nonzero; the undirected variant symmetrizes. Modelled from the
spec (sparse.connectivity is not under src/). -/
def adjacency {n : ℕ} (e : Fin n → Fin n → ℚ) (directed : Bool) : Fin n → Fin n → Bool :=
  if directed then
    fun i j => decide (e i j ≠ 0)
  else
    fun i j => decide (e i j ≠ 0 ∨ e j i ≠ 0)

/-- One expansion step of the reachability relation along adjacency edges. -/
def reachStep {n : ℕ} (adj : Fin n → Fin n → Bool) (r : Fin n → Fin n → Bool) :
    Fin n → Fin n → Bool :=
  fun i j => r i j || (List.finRange n).any (fun k => r i k && adj k j)

/-- Reflexive-transitive closure of the adjacency relation, obtained by n
expansion steps. -/
def reach {n : ℕ} (adj : Fin n → Fin n → Bool) : Fin n → Fin n → Bool :=
  (reachStep adj)^[n] (fun i j => i == j)

/-- Two states are in the same component when each reaches the other. -/
def sameComp {n : ℕ} (e : Fin n → Fin n → ℚ) (directed : Bool) (i j : Fin n) : Bool :=
  reach (adjacency e directed) i j && reach (adjacency e directed) j i

/-- Component of state i, as the ascending list of its members. -/
def component {n : ℕ} (e : Fin n → Fin n → ℚ) (directed : Bool) (i : Fin n) : List (Fin n) :=
  (List.finRange n).filter (fun j => sameComp e directed i j)

/-- Modelled from the spec: sparse.connectivity.connected_sets is not under
src/; the spec asks for the connected components of the count-matrix graph
(strongly connected when directed), sorted by descending size with a
deterministic tie-break. -/
def connected_sets {n : ℕ} (C : Mat n) (directed : Bool) : List (List (Fin n)) :=
  (((List.finRange n).map (component C.entry directed)).dedup).insertionSort
    (fun a b => b.length ≤ a.length)

/-- Modelled from the spec: the largest connected set is the first entry of
the sorted component list. -/
def largest_connected_set {n : ℕ} (C : Mat n) (directed : Bool) : List (Fin n) :=
  (connected_sets C directed).headD []

/-- Modelled from the spec: the count matrix restricted to the states of the
largest connected component, preserving their relative order; the sparse
routine returns a sparse matrix. -/
def largest_connected_submatrix {n : ℕ} (C : Mat n) (directed : Bool) :
    (m : ℕ) × Mat m :=
  let lcc := largest_connected_set C directed
  ⟨lcc.length,
    { rep := Rep.sparse,
      entry := fun a b => C.entry (lcc.get a) (lcc.get b) }⟩

/-- Modelled from the spec: C is connected iff connected_sets(C) has exactly
one component. -/
def is_connected {n : ℕ} (C : Mat n) (directed : Bool) : Bool :=
  (connected_sets C directed).length = 1

end connectivity

end sparse

/-- Result of toarray() applied to the sparse submatrix: same entries with the
dense tag. -/
def toarraySig : ((m : ℕ) × Mat m) → (m : ℕ) × Mat m :=
  fun p => ⟨p.1, { rep := Rep.dense, entry := p.2.entry }⟩

/-- connected_sets(C) of the api: dense input is converted to csr first (the
detour around the 2x2 bug), sparse input is passed through. -/
def connected_sets {n : ℕ} (C : Mat n) (directed : Bool) : List (List (Fin n)) :=
  match C.rep with
  | Rep.dense => sparse.connectivity.connected_sets (csr_matrix C.entry) directed
  | Rep.sparse => sparse.connectivity.connected_sets C directed

/-- largest_connected_set(C) of the api, with the same dense-to-csr detour. -/
def largest_connected_set {n : ℕ} (C : Mat n) (directed : Bool) : List (Fin n) :=
  match C.rep with
  | Rep.dense => sparse.connectivity.largest_connected_set (csr_matrix C.entry) directed
  | Rep.sparse => sparse.connectivity.largest_connected_set C directed

/-- largest_connected_submatrix(C) of the api: for dense input the sparse
result is converted back with toarray(). -/
def largest_connected_submatrix {n : ℕ} (C : Mat n) (directed : Bool) :
    (m : ℕ) × Mat m :=
  match C.rep with
  | Rep.dense =>
      toarraySig (sparse.connectivity.largest_connected_submatrix (csr_matrix C.entry) directed)
  | Rep.sparse => sparse.connectivity.largest_connected_submatrix C directed

/-- is_connected(C) of the api, with the same dense-to-csr detour. -/
def is_connected {n : ℕ} (C : Mat n) (directed : Bool) : Bool :=
  match C.rep with
  | Rep.dense => sparse.connectivity.is_connected (csr_matrix C.entry) directed
  | Rep.sparse => sparse.connectivity.is_connected C directed

end MsmEstimation

open MsmEstimation Tica

/-- C4: constructing TICA with a positive dim together with a var_cutoff
different from its default (0.95) raises ValueError at construction time,
before any state is built. -/
theorem tica_init_dim_cutoff_mutually_exclusive
    (lag : ℕ) (dim : ℤ) (vc : ℚ) (km : Bool) (eps : ℚ)
    (mean : Option (List ℚ)) (stride : ℕ)
    (hdim : 0 < dim) (hvc : vc ≠ default_var_cutoff) :
    TICA.init lag dim vc km eps mean stride = Except.error Err.valueError := by
  unfold TICA.init
  rw [if_pos ⟨by omega, hvc⟩]

theorem tica_init_dim_cutoff_mutually_exclusive_witness :
    TICA.init 10 2 (1/2) true (1/1000000) none 1 = Except.error Err.valueError :=
  tica_init_dim_cutoff_mutually_exclusive 10 2 (1/2) true (1/1000000) none 1
    (by norm_num) (by norm_num [default_var_cutoff])

/-- C9: whenever the constructor is called with dim greater than -1 and
succeeds, the stored var_cutoff is 1.0 (an explicitly passed default value is
silently discarded), and dimension() returns exactly dim afterwards, whatever
the estimation state and whatever the variance data. -/
theorem tica_positive_dim_overrides_cutoff
    (lag : ℕ) (dim : ℤ) (vc : ℚ) (km : Bool) (eps : ℚ)
    (mean : Option (List ℚ)) (stride : ℕ) (t : TICAState)
    (hdim : -1 < dim)
    (h : TICA.init lag dim vc km eps mean stride = Except.ok t) :
    t.var_cutoff = 1 ∧ t.dim = dim ∧
      ∀ (est : Bool) (ev cv mn : List ℚ) (evec : List (List ℚ))
        (sk : List ℕ) (dd : ℕ),
        TICA.dimension
          { t with estimated := est, eigenvalues := ev, eigenvectors := evec,
                   cumvar := cv, mean := mn, skipped_trajs := sk } dd =
          Except.ok dim := by
  unfold TICA.init at h
  split at h
  · cases h
  · injection h with h
    subst h
    refine ⟨?_, rfl, ?_⟩
    · first
        | rfl
        | (show (if dim > -1 then (1:ℚ) else vc) = 1
           exact if_pos hdim)
    intro est ev cv mn evec sk dd
    unfold TICA.dimension
    split
    · rfl
    · next hneg => exact absurd hdim hneg

/-- Concrete TICA state produced by init with lag 1, dim 2 and the default
var_cutoff. -/
def ticaDimTwo : TICAState :=
  { lag := 1, dim := 2, var_cutoff := 1, kinetic_map := true, epsilon := 0,
    meanInit := none, stride := 1, estimated := false, eigenvalues := [],
    eigenvectors := [], cumvar := [], mean := [], skipped_trajs := [] }

theorem tica_positive_dim_overrides_cutoff_witness :
    ticaDimTwo.var_cutoff = 1 ∧ ticaDimTwo.dim = 2 ∧
      TICA.dimension
        { ticaDimTwo with estimated := true, eigenvalues := [], eigenvectors := [],
                          cumvar := [], mean := [], skipped_trajs := [] } 7 =
        Except.ok 2 := by
  have h : TICA.init 1 2 (95/100) true 0 none 1 = Except.ok ticaDimTwo := by
    unfold TICA.init
    norm_num [default_var_cutoff, ticaDimTwo]
  obtain ⟨h1, h2, h3⟩ :=
    tica_positive_dim_overrides_cutoff 1 2 (95/100) true 0 none 1 ticaDimTwo
      (by norm_num) h
  exact ⟨h1, h2, h3 true [] [] [] [] [] 7⟩

/-- C10: on a not-yet-estimated TICA object with dim -1, dimension() raises
RuntimeError when var_cutoff is strictly below 1.0 and returns the input data
dimension when var_cutoff is exactly 1.0. -/
theorem tica_dimension_before_estimation (t : TICAState) (dd : ℕ)
    (h1 : t.estimated = false) (h2 : t.dim = -1) :
    (t.var_cutoff < 1 → TICA.dimension t dd = Except.error Err.runtimeError) ∧
    (t.var_cutoff = 1 → TICA.dimension t dd = Except.ok (dd : ℤ)) := by
  unfold TICA.dimension
  rw [if_neg (by omega), if_neg (fun hc => hc.1 h2), if_neg (by simp [h1])]
  constructor
  · intro hv
    rw [if_neg (ne_of_lt hv)]
  · intro hv
    rw [if_pos hv]

/-- Unestimated state with dim -1 and a strict variance cutoff. -/
def ticaCutoffLow : TICAState :=
  { lag := 1, dim := -1, var_cutoff := 1/2, kinetic_map := true, epsilon := 0,
    meanInit := none, stride := 1, estimated := false, eigenvalues := [],
    eigenvectors := [], cumvar := [], mean := [], skipped_trajs := [] }

/-- Unestimated state with dim -1 and var_cutoff 1.0. -/
def ticaCutoffOne : TICAState :=
  { ticaCutoffLow with var_cutoff := 1 }

theorem tica_dimension_before_estimation_witness :
    TICA.dimension ticaCutoffLow 5 = Except.error Err.runtimeError ∧
      TICA.dimension ticaCutoffOne 5 = Except.ok (5 : ℤ) :=
  ⟨(tica_dimension_before_estimation ticaCutoffLow 5 rfl rfl).1 (by norm_num [ticaCutoffLow]),
   (tica_dimension_before_estimation ticaCutoffOne 5 rfl rfl).2 rfl⟩

/-- C2: the explicitly unsupported combinations fail loudly: nonreversible
estimation with a fixed stationary distribution raises NotImplementedError for
every count matrix and every choice of delegate routines, and
count_matrix_cores raises NotImplementedError for every input. -/
theorem unsupported_combinations_raise_not_implemented :
    (∀ (n : ℕ) (etr : (Fin n → Fin n → ℚ) → Fin n → Fin n → ℚ)
       (tfix : (Fin n → Fin n → ℚ) → (Fin n → ℚ) → Fin n → Fin n → ℚ)
       (tnrs : Mat n → Mat n)
       (tnrd : (Fin n → Fin n → ℚ) → Fin n → Fin n → ℚ)
       (C : Mat n) (mu : Fin n → ℚ),
       transition_matrix etr tfix tnrs tnrd C false (some mu) =
         Except.error Err.notImplementedError) ∧
    (∀ (dtraj cores : List ℤ) (lag : ℤ) (sliding : Bool),
       count_matrix_cores dtraj cores lag sliding =
         Except.error Err.notImplementedError) :=
  ⟨fun _ _ _ _ _ _ _ => rfl, fun _ _ _ _ => rfl⟩

/-- C1: in every supported branch of transition_matrix the returned matrix has
the representation of the input count matrix, for any delegate routines of the
interfaces fixed by the source (the sparse nonreversible routine returns a
sparse matrix). -/
theorem transition_matrix_preserves_representation {n : ℕ}
    (etr : (Fin n → Fin n → ℚ) → Fin n → Fin n → ℚ)
    (tfix : (Fin n → Fin n → ℚ) → (Fin n → ℚ) → Fin n → Fin n → ℚ)
    (tnrs : Mat n → Mat n)
    (tnrd : (Fin n → Fin n → ℚ) → Fin n → Fin n → ℚ)
    (hs : ∀ M : Mat n, (tnrs M).rep = Rep.sparse)
    (C : Mat n) (reversible : Bool) (mu : Option (Fin n → ℚ)) (T : Mat n)
    (h : transition_matrix etr tfix tnrs tnrd C reversible mu = Except.ok T) :
    T.rep = C.rep := by
  obtain ⟨rep, e⟩ := C
  obtain ⟨rep2, e2⟩ := T
  cases rep <;> cases reversible <;> rcases mu with _ | m <;>
    simp [transition_matrix, csr_matrix, Mat.toarray] at h
  all_goals
    first
      | exact h.1.symm
      | (rw [← h]; exact hs _)

theorem transition_matrix_preserves_representation_witness :
    ((⟨Rep.dense, fun _ _ => (0:ℚ) + 1⟩ : Mat 1)).rep =
      ((⟨Rep.dense, fun _ _ => (0:ℚ)⟩ : Mat 1)).rep :=
  transition_matrix_preserves_representation
    (fun e i j => e i j + 1) (fun e _ => e) (fun M => csr_matrix M.entry)
    (fun e => e) (fun _ => rfl)
    ⟨Rep.dense, fun _ _ => 0⟩ true none ⟨Rep.dense, fun _ _ => (0:ℚ) + 1⟩ rfl

/-- C8: prior_const warns exactly when the input count matrix is sparse, and
the returned constant-prior matrix is dense by construction. -/
theorem prior_const_warns_iff_sparse :
    ∀ (n : ℕ) (C : Mat n) (alpha : ℚ),
      ((prior_const C alpha).1 ≠ [] ↔ C.rep = Rep.sparse) ∧
      (prior_const C alpha).2.rep = Rep.dense := by
  intro n C alpha
  obtain ⟨rep, e⟩ := C
  cases rep <;>
    simp [prior_const, MsmEstimation.sparse.prior.prior_const]

/-- C7: for dense input each connectivity operation of the api returns exactly
the sparse-path result on the csr-converted matrix, largest_connected_submatrix
converts the sparse result back to a dense array, and a concrete 2-state
matrix is handled this way without a dense/sparse-conversion bug. -/
theorem dense_connectivity_uses_sparse_path {n : ℕ}
    (e : Fin n → Fin n → ℚ) (directed : Bool) :
    connected_sets ⟨Rep.dense, e⟩ directed =
        MsmEstimation.sparse.connectivity.connected_sets (csr_matrix e) directed ∧
    largest_connected_set ⟨Rep.dense, e⟩ directed =
        MsmEstimation.sparse.connectivity.largest_connected_set (csr_matrix e) directed ∧
    largest_connected_submatrix ⟨Rep.dense, e⟩ directed =
        toarraySig
          (MsmEstimation.sparse.connectivity.largest_connected_submatrix (csr_matrix e) directed) ∧
    (largest_connected_submatrix ⟨Rep.dense, e⟩ directed).2.rep = Rep.dense ∧
    is_connected ⟨Rep.dense, e⟩ directed =
        MsmEstimation.sparse.connectivity.is_connected (csr_matrix e) directed ∧
    is_connected ⟨Rep.dense, fun i j : Fin 2 => if i = j then (0:ℚ) else 1⟩ true = true :=
  ⟨rfl, rfl, rfl, rfl, rfl, by decide⟩

/-- Unestimated TICA state with lag 5 at stride 1 and default configuration. -/
def ticaLagFive : TICAState :=
  { lag := 5, dim := -1, var_cutoff := 95/100, kinetic_map := true, epsilon := 0,
    meanInit := none, stride := 1, estimated := false, eigenvalues := [],
    eigenvectors := [], cumvar := [], mean := [], skipped_trajs := [] }

/-- Two trajectories at stride 1, of lengths 5 and 4: one shorter than lag 5,
one not shorter, yet none strictly longer. -/
def srcFiveFour : DataSource :=
  { rawLengths := [5, 4], stridedLengths := [5, 4], data_dim := 1 }

/-- C5 counterexample: with trajectories of lengths 5 and 4 and lag 5, some
but not all trajectories are shorter than the lag, yet estimation raises the
fatal ValueError (the fatal check requires a trajectory strictly longer than
the lag), contradicting the claim that a partial skip always succeeds. -/
theorem tica_partial_short_counterexample :
    (∃ l ∈ srcFiveFour.rawLengths, l < ticaLagFive.lag) ∧
    (∃ l ∈ srcFiveFour.rawLengths, ¬ l < ticaLagFive.lag) ∧
    TICA.estimate ticaLagFive srcFiveFour = Except.error Err.valueError :=
  ⟨⟨4, by decide, by decide⟩, ⟨5, by decide, by decide⟩, rfl⟩

/-- C5 amended: estimation is fatal exactly when no trajectory at the
configured stride is strictly longer than the lag; when at least one is, it
succeeds and the skipped list records exactly the indices of trajectories
whose length is strictly less than the lag. -/
theorem tica_short_trajectory_handling (t : TICAState) (src : DataSource)
    (h0 : 0 < src.data_dim) (h1 : t.dim ≤ (src.data_dim : ℤ)) :
    ((¬ ∃ l ∈ src.stridedLengths, t.lag < l) →
      TICA.estimate t src = Except.error Err.valueError) ∧
    ((∃ l ∈ src.stridedLengths, t.lag < l) →
      ∃ t2, TICA.estimate t src = Except.ok t2 ∧
        ∀ i : ℕ, i ∈ t2.skipped_trajs ↔
          (i < src.rawLengths.length ∧ src.rawLengths.getD i 0 < t.lag)) := by
  unfold TICA.estimate
  rw [if_neg (fun hc => hc h0), if_neg (fun hc => hc h1)]
  constructor
  · intro hno
    rw [if_pos (by simpa [List.any_eq_true] using hno)]
  · intro hyes
    rw [if_neg (not_not_intro (by simpa [List.any_eq_true] using hyes))]
    refine ⟨_, rfl, fun i => ?_⟩
    simp [List.mem_filter, List.mem_range]

/-- Unestimated TICA state with lag 5 and a data source where the first
trajectory (length 6) is strictly longer than the lag and the second
(length 4) is shorter. -/
def srcSixFour : DataSource :=
  { rawLengths := [6, 4], stridedLengths := [6, 4], data_dim := 1 }

theorem tica_short_trajectory_handling_witness :
    ∃ t2, TICA.estimate ticaLagFive srcSixFour = Except.ok t2 ∧
      1 ∈ t2.skipped_trajs ∧ 0 ∉ t2.skipped_trajs := by
  obtain ⟨t2, h, hiff⟩ :=
    (tica_short_trajectory_handling ticaLagFive srcSixFour (by decide) (by decide)).2
      ⟨6, by decide, by decide⟩
  refine ⟨t2, h, (hiff 1).2 (by decide), fun hmem => ?_⟩
  exact absurd ((hiff 0).1 hmem).2 (by decide)

theorem sum_flatMap_map {α β : Type} (l : List α) (g : α → List β) (h : β → ℚ) :
    ((l.flatMap g).map h).sum = (l.map (fun a => ((g a).map h).sum)).sum := by
  induction l with
  | nil => rfl
  | cons a l ih => simp [List.flatMap_cons, ih]

theorem filter_map_sum {α : Type} (l : List α) (p : α → Bool) (q : α → ℚ) :
    ((l.filter p).map q).sum = (l.map (fun x => if p x then q x else 0)).sum := by
  induction l with
  | nil => rfl
  | cons a l ih => by_cases hp : p a <;> simp [List.filter_cons, hp, ih]

theorem nonzero_map_sum {n : ℕ} (T : Fin n → Fin n → ℚ) (h : Fin n × Fin n → ℚ) :
    ((MsmEstimation.nonzero T).map h).sum =
      ∑ i : Fin n, ∑ j : Fin n, if T i j ≠ 0 then h (i, j) else 0 := by
  unfold MsmEstimation.nonzero
  rw [sum_flatMap_map, Fin.sum_univ_def]
  congr 1
  apply List.map_congr_left
  intro i _
  rw [List.map_map, filter_map_sum, Fin.sum_univ_def]
  congr 1
  apply List.map_congr_left
  intro j _
  by_cases hT : T i j = 0 <;> simp [hT, Function.comp]

theorem log_likelihood_eq_sum {n : ℕ} (f : ℚ → ℚ) (C T : Mat n) :
    log_likelihood f C T =
      ∑ i : Fin n, ∑ j : Fin n,
        if T.entry i j ≠ 0 then C.entry i j * f (T.entry i j) else 0 := by
  unfold log_likelihood
  split
  · rfl
  · exact nonzero_map_sum T.entry (fun p => C.entry p.1 p.2 * f (T.entry p.1 p.2))

/-- C3: log_likelihood(C, T) equals the sum of C_ij log T_ij over the index
pairs with T_ij nonzero, in both the sparse and the dense branch, and its
value never depends on the value of the logarithm at 0. -/
theorem log_likelihood_nonzero_sum {n : ℕ} (f : ℚ → ℚ) (C T : Mat n) :
    (log_likelihood f C T =
      ∑ i : Fin n, ∑ j : Fin n,
        if T.entry i j ≠ 0 then C.entry i j * f (T.entry i j) else 0) ∧
    (∀ g : ℚ → ℚ, (∀ x : ℚ, x ≠ 0 → f x = g x) →
      log_likelihood f C T = log_likelihood g C T) := by
  refine ⟨log_likelihood_eq_sum f C T, fun g hg => ?_⟩
  rw [log_likelihood_eq_sum f C T, log_likelihood_eq_sum g C T]
  refine Finset.sum_congr rfl (fun i _ => Finset.sum_congr rfl (fun j _ => ?_))
  by_cases hT : T.entry i j = 0
  · simp [hT]
  · simp [hT, hg _ hT]

/-- Dense 2-state count matrix with all entries 3. -/
def matCountThree : Mat 2 := ⟨Rep.dense, fun _ _ => 3⟩

/-- Dense 2-state transition matrix with zero off-diagonal entries. -/
def matHalfDiag : Mat 2 := ⟨Rep.dense, fun i j => if i = j then 1/2 else 0⟩

theorem log_likelihood_nonzero_sum_witness :
    log_likelihood (fun x => x) matCountThree matHalfDiag =
      log_likelihood (fun x => if x = 0 then 99 else x) matCountThree matHalfDiag :=
  (log_likelihood_nonzero_sum (fun x => x) matCountThree matHalfDiag).2 _
    (fun _ hx => (if_neg hx).symm)

theorem dotRow_eq_sum (xs ys : List ℚ) (h : xs.length = ys.length) :
    dotRow xs ys = ∑ k ∈ Finset.range xs.length, xs.getD k 0 * ys.getD k 0 := by
  induction xs generalizing ys with
  | nil => simp [dotRow]
  | cons x xs ih =>
    cases ys with
    | nil => simp at h
    | cons y ys =>
      simp only [dotRow, List.length_cons]
      rw [Finset.sum_range_succ']
      simp only [List.getD_cons_succ, List.getD_cons_zero]
      rw [ih ys (by simpa using h)]
      ring

theorem proj_row_entry (ev : List (List ℚ)) (mean row : List ℚ) (m dN j : ℕ)
    (hrow : row.length = m) (hmean : mean.length = m) (hev : ev.length = m)
    (hj : j < dN) :
    ((List.range dN).map
        (fun j2 => dotRow (List.zipWith (fun a b => a - b) row mean)
          (colOf ev j2))).getD j 0 =
      ∑ k ∈ Finset.range m,
        (row.getD k 0 - mean.getD k 0) * ((ev.getD k []).getD j 0) := by
  have hzl : (List.zipWith (fun a b => a - b) row mean).length = m := by
    simp [hrow, hmean]
  have hcl : (colOf ev j).length = m := by simp [colOf, hev]
  have hb : j < ((List.range dN).map
      (fun j2 => dotRow (List.zipWith (fun a b => a - b) row mean)
        (colOf ev j2))).length := by
    simpa using hj
  rw [List.getD_eq_getElem _ _ hb, List.getElem_map, List.getElem_range,
      dotRow_eq_sum _ _ (hzl.trans hcl.symm), hzl]
  refine Finset.sum_congr rfl (fun k hk => ?_)
  have hkm : k < m := Finset.mem_range.mp hk
  have h1 : k < (List.zipWith (fun a b => a - b) row mean).length := by omega
  have h2 : k < (colOf ev j).length := by omega
  rw [List.getD_eq_getElem _ _ h1, List.getD_eq_getElem _ _ h2, List.getElem_zipWith]
  unfold colOf
  rw [List.getElem_map]
  rw [List.getD_eq_getElem row _ (by omega), List.getD_eq_getElem mean _ (by omega),
      List.getD_eq_getElem ev _ (by omega)]

theorem proj_matrix_entry (ev : List (List ℚ)) (mean : List ℚ)
    (X : List (List ℚ)) (m dN : ℕ)
    (hX : ∀ row ∈ X, row.length = m) (hmean : mean.length = m)
    (hev : ev.length = m) (i j : ℕ) (hi : i < X.length) (hj : j < dN) :
    (((X.map (fun row => List.zipWith (fun a b => a - b) row mean)).map
        (fun row => (List.range dN).map
          (fun j2 => dotRow row (colOf ev j2)))).getD i []).getD j 0 =
      ∑ k ∈ Finset.range m,
        ((X.getD i []).getD k 0 - mean.getD k 0) * ((ev.getD k []).getD j 0) := by
  have hb : i < ((X.map (fun row => List.zipWith (fun a b => a - b) row mean)).map
      (fun row => (List.range dN).map (fun j2 => dotRow row (colOf ev j2)))).length := by
    simpa using hi
  rw [List.getD_eq_getElem _ _ hb, List.getElem_map, List.getElem_map,
      List.getD_eq_getElem X _ hi]
  exact proj_row_entry ev mean X[i] m dN j (hX _ (List.getElem_mem hi)) hmean hev hj

theorem zipWith_mul_getD (ys zs : List ℚ) (j : ℕ)
    (h1 : j < ys.length) (h2 : j < zs.length) :
    (List.zipWith (fun a b => a * b) ys zs).getD j 0 = ys.getD j 0 * zs.getD j 0 := by
  have hb : j < (List.zipWith (fun a b => a * b) ys zs).length := by
    simp [List.length_zipWith]
    omega
  rw [List.getD_eq_getElem _ _ hb, List.getElem_zipWith,
      List.getD_eq_getElem ys _ h1, List.getD_eq_getElem zs _ h2]

theorem take_getD (l : List ℚ) (dN j : ℕ) (hj : j < dN) (hl : j < l.length) :
    (l.take dN).getD j 0 = l.getD j 0 := by
  have hb : j < (l.take dN).length := by
    simp [List.length_take]
    omega
  rw [List.getD_eq_getElem _ _ hb, List.getElem_take, List.getD_eq_getElem l _ hl]

/-- C6: after estimation the TICA projection maps X to (X - mean) times the
first d eigenvector columns with d = dimension(); with kinetic_map enabled the
columns are additionally scaled elementwise by the first d eigenvalues, and
with kinetic_map disabled no eigenvalue rescaling is applied. -/
theorem tica_transform_formula (t : TICAState) (data_dim m : ℕ)
    (X : List (List ℚ))
    (hX : ∀ row ∈ X, row.length = m)
    (hmean : t.mean.length = m)
    (hev : t.eigenvectors.length = m)
    (d : ℤ) (hd : TICA.dimension t data_dim = Except.ok d)
    (hdn : d.toNat ≤ t.eigenvalues.length) :
    ∃ Y, TICA.transform_array t data_dim X = Except.ok Y ∧
      Y.length = X.length ∧
      (∀ i, i < X.length → (Y.getD i []).length = d.toNat) ∧
      (∀ i j, i < X.length → j < d.toNat →
        (Y.getD i []).getD j 0 =
          (∑ k ∈ Finset.range m,
              ((X.getD i []).getD k 0 - t.mean.getD k 0) *
                ((t.eigenvectors.getD k []).getD j 0)) *
            (if t.kinetic_map then t.eigenvalues.getD j 0 else 1)) := by
  have hY0row : ∀ i, i < X.length →
      (((X.map (fun row => List.zipWith (fun a b => a - b) row t.mean)).map
        (fun row => (List.range d.toNat).map
          (fun j2 => dotRow row (colOf t.eigenvectors j2)))).getD i []) =
        (List.range d.toNat).map
          (fun j2 => dotRow (List.zipWith (fun a b => a - b) (X.getD i []) t.mean)
            (colOf t.eigenvectors j2)) := by
    intro i hi
    rw [List.getD_eq_getElem _ _ (by simpa using hi), List.getElem_map, List.getElem_map,
        List.getD_eq_getElem X _ hi]
  cases hkm : t.kinetic_map with
  | false =>
    refine ⟨(X.map (fun row => List.zipWith (fun a b => a - b) row t.mean)).map
        (fun row => (List.range d.toNat).map
          (fun j2 => dotRow row (colOf t.eigenvectors j2))), ?_, by simp, ?_, ?_⟩
    · simp only [TICA.transform_array, hd, hkm, Bool.false_eq_true, if_false]
    · intro i hi
      rw [hY0row i hi]
      simp
    · intro i j hi hj
      simp only [Bool.false_eq_true, if_false, mul_one]
      exact proj_matrix_entry t.eigenvectors t.mean X m d.toNat hX hmean hev i j hi hj
  | true =>
    refine ⟨((X.map (fun row => List.zipWith (fun a b => a - b) row t.mean)).map
        (fun row => (List.range d.toNat).map
          (fun j2 => dotRow row (colOf t.eigenvectors j2)))).map
        (fun row => List.zipWith (fun a b => a * b) row (t.eigenvalues.take d.toNat)),
      ?_, by simp, ?_, ?_⟩
    · simp only [TICA.transform_array, hd, hkm, if_true]
    · intro i hi
      rw [List.getD_eq_getElem _ _ (by simpa using hi), List.getElem_map,
          ← List.getD_eq_getElem _ _ (by simpa using hi), hY0row i hi]
      simp [List.length_zipWith, List.length_take]
      omega
    · intro i j hi hj
      have hrow : ((((X.map (fun row => List.zipWith (fun a b => a - b) row t.mean)).map
          (fun row => (List.range d.toNat).map
            (fun j2 => dotRow row (colOf t.eigenvectors j2)))).map
          (fun row => List.zipWith (fun a b => a * b) row
            (t.eigenvalues.take d.toNat))).getD i []) =
          List.zipWith (fun a b => a * b)
            ((((X.map (fun row => List.zipWith (fun a b => a - b) row t.mean)).map
              (fun row => (List.range d.toNat).map
                (fun j2 => dotRow row (colOf t.eigenvectors j2)))).getD i []))
            (t.eigenvalues.take d.toNat) := by
        rw [List.getD_eq_getElem _ _ (by simpa using hi), List.getElem_map,
            ← List.getD_eq_getElem _ _ (by simpa using hi)]
      rw [hrow, zipWith_mul_getD _ _ j (by rw [hY0row i hi]; simpa using hj)
            (by simp [List.length_take]; omega),
          take_getD _ _ _ hj (by omega),
          proj_matrix_entry t.eigenvectors t.mean X m d.toNat hX hmean hev i j hi hj]
      simp

/-- Estimated two-dimensional TICA state with kinetic-map scaling, identity
eigenvectors and eigenvalues 1/2 and 1/3. -/
def ticaKinetic : TICAState :=
  { lag := 1, dim := 2, var_cutoff := 1, kinetic_map := true, epsilon := 0,
    meanInit := none, stride := 1, estimated := true,
    eigenvalues := [1/2, 1/3], eigenvectors := [[1, 0], [0, 1]],
    cumvar := [1/2, 1], mean := [0, 0], skipped_trajs := [] }

theorem tica_transform_formula_witness :
    ∃ Y, TICA.transform_array ticaKinetic 2 [[1, 2]] = Except.ok Y ∧
      (Y.getD 0 []).getD 0 0 = 1/2 ∧ (Y.getD 0 []).getD 1 0 = 2/3 := by
  obtain ⟨Y, hY, hlen, hrow, hentry⟩ :=
    tica_transform_formula ticaKinetic 2 2 [[1, 2]]
      (by simp) rfl rfl 2 rfl (by decide)
  refine ⟨Y, hY, ?_, ?_⟩
  · rw [hentry 0 0 (by norm_num) (by decide)]
    norm_num [Finset.sum_range_succ, ticaKinetic]
  · rw [hentry 0 1 (by norm_num) (by decide)]
    norm_num [Finset.sum_range_succ, ticaKinetic]

